import Mathlib

/-!
Verification of the barbones-agent repository (src/main.py, src/tools.py).

The embedding below translates the category-derivation code of
`tools.scrape_and_embed_website`, the two tool-request parsers of
`main.py`, the query adapter `tools.query_information`, the ingestion
pipeline, and the per-turn orchestration of `run_chat_loop` into Lean.
Python strings are represented as Lean `String` (lists of characters);
Python slices, `startswith`/`endswith`, `re.sub` and `re.search` on the
concrete patterns used by the code are translated into explicit
character-list operations.
-/

namespace BarbonesAgent

/-! ## Category deriver (tools.py, scrape_and_embed_website lines 122-141) -/

/-- The character class `[a-zA-Z0-9_-]` of the sanitizing regex in
`tools.py` line 127 (also the class of the spec regex `[A-Za-z0-9_-]`). -/
def isCategoryChar (c : Char) : Bool :=
  ('a' ≤ c && c ≤ 'z') || ('A' ≤ c && c ≤ 'Z') || ('0' ≤ c && c ≤ '9') || c == '_' || c == '-'

/-- `re.sub(r'[^a-zA-Z0-9_-]+', '_', s)`: every maximal run of characters
outside the class is replaced by a single underscore.  The boolean flag
records whether the previous character was part of a run being replaced. -/
def squash : Bool → List Char → List Char
  | _, [] => []
  | prevBad, c :: rest =>
    if isCategoryChar c then c :: squash false rest
    else if prevBad then squash prevBad rest
    else '_' :: squash true rest

/-- Python `str.strip('_')`: remove leading and trailing underscores. -/
def stripUnd (l : List Char) : List Char :=
  ((l.dropWhile (fun c => c == '_')).reverse.dropWhile (fun c => c == '_')).reverse

/-- The `while len(category) < 3: category += "_"` loop of tools.py
line 135-136.  Starting from any list, at most three appended underscores
reach length 3, so three iterations of fuel execute the loop exactly. -/
def padUnd : Nat → List Char → List Char
  | 0, l => l
  | n + 1, l => if l.length < 3 then padUnd n (l ++ ['_']) else l

/-- tools.py lines 131-132: `if len(category) > 60: category = category[:60]`. -/
def truncate60 (l : List Char) : List Char :=
  if l.length > 60 then l.take 60 else l

/-- tools.py lines 133-136: `if len(category) < 3:` pad with `_web` /
`scraped_data` and trailing underscores. -/
def padShort (l : List Char) : List Char :=
  if l.length < 3 then
    padUnd 3 (if l ≠ [] then l ++ ('_' :: 'w' :: 'e' :: 'b' :: []) else "scraped_data".data)
  else l

/-- Length bounding of tools.py lines 131-140: truncate to 60, pad short
names with `_web` / `scraped_data` and underscores, final truncation to 63,
fallback literal if empty. -/
def boundCategory (cat : List Char) : List Char :=
  if (padShort (truncate60 cat)).take 63 = [] then "default_scraped_content".data
  else (padShort (truncate60 cat)).take 63

/-- tools.py line 123: `parsed_url.hostname if parsed_url.hostname else
"scraped_website"` (Python truthiness: `None` and `""` both fall back). -/
def hostBase (hostn : Option String) : String :=
  match hostn with
  | some h => if h = "" then "scraped_website" else h
  | none => "scraped_website"

/-- The character list of the category produced by tools.py lines 122-140:
sanitize the base, strip underscores, bound the length. -/
def deriveCategoryList (hostn : Option String) : List Char :=
  boundCategory (stripUnd (squash false (hostBase hostn).data))

/-- The category produced by tools.py lines 122-140 from the hostname
returned by `urlparse` (`none` models Python `None`). -/
def deriveCategory (hostn : Option String) : String :=
  String.mk (deriveCategoryList hostn)

/-- Scan to the first `://` of a URL, as `urllib.parse` locates the
authority of an absolute URL with a scheme. -/
def dropToAuthority : List Char → Option (List Char)
  | ':' :: '/' :: '/' :: rest => some rest
  | _ :: rest => dropToAuthority rest
  | [] => none

/-- Hostname from a netloc: the part after the last `@`, before the first
`:`, lowercased — as `urlparse(...).hostname` computes it. -/
def netlocHost (netloc : List Char) : List Char :=
  ((netloc.reverse.takeWhile (fun c => c != '@')).reverse.takeWhile
    (fun c => c != ':')).map Char.toLower

/-- Models `urllib.parse.urlparse(url).hostname` for simple absolute URLs
(scheme followed by `://`, no IPv6 brackets): the netloc is the text
between `://` and the next `/`, `?` or `#`; the hostname is the netloc
without userinfo and port, lowercased.  `urlparse` is the Python standard
library, external to the repository; this translation covers the URL
shapes the claims evaluate. -/
def urlHostname (url : String) : Option String :=
  match dropToAuthority url.data with
  | none => none
  | some rest =>
    some (String.mk (netlocHost (rest.takeWhile (fun c => c != '/' && c != '?' && c != '#'))))

/-- Modelled from the spec: "ignoring a single leading `www.` prefix" —
used only to state the hostname-equivalence hypothesis of claim C2; the
source code itself never strips `www.`. -/
def stripWww (h : String) : String :=
  if "www.".data.isPrefixOf h.data then String.mk (h.data.drop 4) else h

/-- C1: the code's category derivation, applied to the URL
`https://www.fib.upc.edu`, yields `www_fib_upc_edu`, not the `fib_upc`
the claim (and main.py's own system prompt, line 68) states: the code
never strips `www.` and never drops the last hostname segment. -/
theorem c1_deriveCategory_fib_eval :
    deriveCategory (urlHostname "https://www.fib.upc.edu") = "www_fib_upc_edu" ∧
    deriveCategory (urlHostname "https://www.fib.upc.edu") ≠ "fib_upc" := by
  constructor <;> decide

/-- C2: two URLs whose hostnames agree after ignoring a single leading
`www.` nevertheless receive different categories from the code, because
the code sanitizes the raw hostname without stripping `www.`. -/
theorem c2_www_breaks_category_equality :
    stripWww ((urlHostname "https://www.fib.upc.edu").getD "") =
      stripWww ((urlHostname "https://fib.upc.edu").getD "") ∧
    deriveCategory (urlHostname "https://www.fib.upc.edu") ≠
      deriveCategory (urlHostname "https://fib.upc.edu") := by
  constructor <;> decide

/-! ## Validity invariant of derived categories (claim C3) -/

theorem squash_all (b : Bool) (l : List Char) : (squash b l).all isCategoryChar = true := by
  induction l generalizing b with
  | nil => rfl
  | cons c rest ih =>
    by_cases hc : isCategoryChar c
    · simp [squash, hc, ih]
    · by_cases hb : b = true
      · simp [squash, hc, hb, ih]
      · simp only [Bool.not_eq_true] at hb
        subst hb
        simp [squash, hc, ih]
        decide

theorem mem_dropWhile_mem {p : Char → Bool} {l : List Char} {c : Char}
    (h : c ∈ l.dropWhile p) : c ∈ l := by
  induction l with
  | nil => simp [List.dropWhile] at h
  | cons a rest ih =>
    rw [List.dropWhile] at h
    by_cases ha : p a
    · simp [ha] at h
      exact List.mem_cons_of_mem a (ih h)
    · simp [ha] at h
      simpa using h

theorem stripUnd_all {p : Char → Bool} {l : List Char} (h : l.all p = true) :
    (stripUnd l).all p = true := by
  rw [List.all_eq_true] at h ⊢
  intro c hc
  apply h
  unfold stripUnd at hc
  rw [List.mem_reverse] at hc
  have hc2 := mem_dropWhile_mem hc
  rw [List.mem_reverse] at hc2
  exact mem_dropWhile_mem hc2

theorem padUnd_of_le (n : Nat) (l : List Char) (h : 3 ≤ l.length) : padUnd n l = l := by
  cases n with
  | zero => rfl
  | succ m => simp [padUnd, Nat.not_lt.mpr h]

theorem all_take {p : Char → Bool} {l : List Char} (n : Nat) (h : l.all p = true) :
    (l.take n).all p = true := by
  rw [List.all_eq_true] at h ⊢
  exact fun c hc => h c (List.mem_of_mem_take hc)

theorem truncate60_all {l : List Char} (h : l.all isCategoryChar = true) :
    (truncate60 l).all isCategoryChar = true := by
  unfold truncate60
  split
  · exact all_take 60 h
  · exact h

theorem truncate60_length (l : List Char) : (truncate60 l).length ≤ 60 := by
  unfold truncate60
  split
  · rw [List.length_take]; omega
  · omega

theorem padShort_all {l : List Char} (h : l.all isCategoryChar = true) :
    (padShort l).all isCategoryChar = true := by
  unfold padShort
  split
  · split
    · rename_i hnil
      rw [padUnd_of_le _ _ (by simp [List.length_append])]
      rw [List.all_append, h]
      decide
    · rw [padUnd_of_le _ _ (by decide)]
      decide
  · exact h

theorem padShort_length {l : List Char} (h : l.length ≤ 60) :
    3 ≤ (padShort l).length ∧ (padShort l).length ≤ 60 := by
  unfold padShort
  split
  · rename_i h3
    split
    · rename_i hnil
      rw [padUnd_of_le _ _ (by simp [List.length_append])]
      rw [List.length_append]
      simp only [List.length_cons, List.length_nil]
      omega
    · rw [padUnd_of_le _ _ (by decide)]
      decide
  · omega

theorem boundCategory_all {l : List Char} (h : l.all isCategoryChar = true) :
    (boundCategory l).all isCategoryChar = true := by
  unfold boundCategory
  split
  · decide
  · exact all_take 63 (padShort_all (truncate60_all h))

theorem boundCategory_length (l : List Char) :
    3 ≤ (boundCategory l).length ∧ (boundCategory l).length ≤ 63 := by
  have hp := padShort_length (truncate60_length l)
  unfold boundCategory
  split
  · decide
  · rw [List.length_take]
    omega

set_option maxHeartbeats 2000000 in
/-- C3: for every input URL, the category the derivation step produces has
length within [3,63] and matches `^[A-Za-z0-9_-]+$` (nonempty follows from
the length bound; every character lies in the class). -/
theorem c3_category_always_valid (url : String) :
    3 ≤ (deriveCategory (urlHostname url)).length ∧
    (deriveCategory (urlHostname url)).length ≤ 63 ∧
    (deriveCategory (urlHostname url)).data.all isCategoryChar = true := by
  have hlen := boundCategory_length (stripUnd (squash false (hostBase (urlHostname url)).data))
  have hall : (deriveCategoryList (urlHostname url)).all isCategoryChar = true :=
    boundCategory_all (stripUnd_all (squash_all false _))
  unfold deriveCategory
  rw [String.length_mk]
  exact ⟨hlen.1, hlen.2, hall⟩

/-! ## Tool-request parsers (main.py lines 30-54) -/

/-- Python `str.startswith` on character lists. -/
def strStarts : List Char → List Char → Bool
  | [], _ => true
  | _ :: _, [] => false
  | a :: p, b :: s => a == b && strStarts p s

/-- Python `str.endswith` on character lists. -/
def strEnds (p l : List Char) : Bool := strStarts p.reverse l.reverse

theorem strStarts_iff (p l : List Char) : strStarts p l = true ↔ ∃ t, l = p ++ t := by
  induction p generalizing l with
  | nil => simp [strStarts]
  | cons a p ih =>
    cases l with
    | nil => simp [strStarts]
    | cons b l2 =>
      show (a == b && strStarts p l2) = true ↔ _
      rw [Bool.and_eq_true, beq_iff_eq, ih]
      constructor
      · rintro ⟨rfl, t, rfl⟩
        exact ⟨t, rfl⟩
      · rintro ⟨t, h⟩
        injection h with h1 h2
        exact ⟨h1.symm, t, h2⟩

theorem strEnds_iff (p l : List Char) : strEnds p l = true ↔ ∃ t, l = t ++ p := by
  rw [strEnds, strStarts_iff]
  constructor
  · rintro ⟨t, h⟩
    refine ⟨t.reverse, ?_⟩
    have h2 := congrArg List.reverse h
    simpa using h2
  · rintro ⟨t, rfl⟩
    exact ⟨t.reverse, by simp⟩

/-- `SCRAPE_URL_PREFIX` of main.py line 30. -/
def scrapeUrlPrefixStr : String := "TOOL_REQUEST: scrape_url(url="

/-- `GET_FROM_VDB_PREFIX` of main.py line 31. -/
def getFromVdbPrefixStr : String := "TOOL_REQUEST: get_from_vdb("

/-- `parse_scrape_url_request` of main.py lines 35-43, on character lists:
check prefix and the `)` suffix, slice them off, require the remaining
content to start and end with a double quote, return what is between.
(The Python `try/except` around the slice can never fire: slicing is
total.) -/
def parseScrapeCore (l : List Char) : Option (List Char) :=
  if strStarts scrapeUrlPrefixStr.data l && strEnds [')'] l then
    if strStarts ['\"'] ((l.drop scrapeUrlPrefixStr.data.length).dropLast) &&
        strEnds ['\"'] ((l.drop scrapeUrlPrefixStr.data.length).dropLast) then
      some ((((l.drop scrapeUrlPrefixStr.data.length).dropLast).drop 1).dropLast)
    else none
  else none

/-- `parse_scrape_url_request` of main.py lines 35-43. -/
def parse_scrape_url_request (llm_output : String) : Option String :=
  (parseScrapeCore llm_output.data).map String.mk

theorem append_ends_char {P t s : List Char} {c : Char} (htne : t ≠ [])
    (h : P ++ t = s ++ [c]) : ∃ ys, t = ys ++ [c] := by
  have h1 : (P ++ t).getLast? = some c := by
    rw [h]
    exact List.getLast?_concat s
  rw [List.getLast?_append] at h1
  cases ht2 : t.getLast? with
  | none => exact absurd (List.getLast?_eq_none_iff.mp ht2) htne
  | some d =>
    rw [ht2] at h1
    simp only [Option.or_some, Option.some.injEq] at h1
    subst h1
    exact List.getLast?_eq_some_iff.mp ht2

theorem parseScrapeCore_iff (l u : List Char) :
    parseScrapeCore l = some u ↔
      l = scrapeUrlPrefixStr.data ++ '\"' :: (u ++ ['\"', ')']) ∨
      (u = [] ∧ l = scrapeUrlPrefixStr.data ++ ['\"', ')']) := by
  constructor
  · intro h
    unfold parseScrapeCore at h
    by_cases h1 : (strStarts scrapeUrlPrefixStr.data l && strEnds [')'] l) = true
    case neg =>
      rw [if_neg h1] at h
      exact Option.noConfusion h
    rw [if_pos h1] at h
    rw [Bool.and_eq_true] at h1
    obtain ⟨h1a, h1b⟩ := h1
    obtain ⟨t, rfl⟩ := (strStarts_iff _ _).mp h1a
    rw [List.drop_left] at h
    by_cases h2 : (strStarts ['\"'] t.dropLast && strEnds ['\"'] t.dropLast) = true
    case neg =>
      rw [if_neg h2] at h
      exact Option.noConfusion h
    rw [if_pos h2] at h
    simp only [Option.some.injEq] at h
    rw [Bool.and_eq_true] at h2
    obtain ⟨h2a, h2b⟩ := h2
    obtain ⟨r, hr⟩ := (strStarts_iff _ _).mp h2a
    have htne : t ≠ [] := by
      intro he
      rw [he] at hr
      simp at hr
    obtain ⟨s, hs⟩ := (strEnds_iff _ _).mp h1b
    obtain ⟨ys, rfl⟩ := append_ends_char htne hs
    rw [List.dropLast_concat] at hr h2b h
    subst hr
    simp only [List.cons_append, List.nil_append, List.drop_succ_cons, List.drop_zero] at h
    by_cases hrnil : r = []
    · subst hrnil
      right
      have hu : u = [] := by simpa using h.symm
      exact ⟨hu, by simp⟩
    · left
      obtain ⟨s2, hs2⟩ := (strEnds_iff _ _).mp h2b
      obtain ⟨ys2, rfl⟩ := append_ends_char (P := ['\"']) hrnil (by simpa using hs2)
      rw [List.dropLast_concat] at h
      subst h
      simp
  · intro h
    rcases h with h | ⟨hu, h⟩
    · subst h
      unfold parseScrapeCore
      have h1 : strStarts scrapeUrlPrefixStr.data
          (scrapeUrlPrefixStr.data ++ '\"' :: (u ++ ['\"', ')'])) = true :=
        (strStarts_iff _ _).mpr ⟨_, rfl⟩
      have h2 : strEnds [')'] (scrapeUrlPrefixStr.data ++ '\"' :: (u ++ ['\"', ')'])) = true := by
        rw [strEnds_iff]
        exact ⟨scrapeUrlPrefixStr.data ++ '\"' :: (u ++ ['\"']), by simp⟩
      rw [if_pos (by rw [Bool.and_eq_true]; exact ⟨h1, h2⟩)]
      have hdrop : ((scrapeUrlPrefixStr.data ++ '\"' :: (u ++ ['\"', ')'])).drop
          scrapeUrlPrefixStr.data.length) = '\"' :: (u ++ ['\"', ')']) := List.drop_left _ _
      rw [hdrop]
      have hdl : ('\"' :: (u ++ ['\"', ')'])).dropLast = '\"' :: (u ++ ['\"']) := by
        have : ('\"' :: (u ++ ['\"', ')'])) = ('\"' :: (u ++ ['\"'])) ++ [')'] := by simp
        rw [this, List.dropLast_concat]
      rw [hdl]
      have h3 : strStarts ['\"'] ('\"' :: (u ++ ['\"'])) = true :=
        (strStarts_iff _ _).mpr ⟨_, rfl⟩
      have h4 : strEnds ['\"'] ('\"' :: (u ++ ['\"'])) = true := by
        rw [strEnds_iff]
        exact ⟨'\"' :: u, by simp⟩
      rw [if_pos (by rw [Bool.and_eq_true]; exact ⟨h3, h4⟩)]
      have hfin : ((('\"' :: (u ++ ['\"'])).drop 1).dropLast) = u := by
        simp only [List.drop_one, List.tail_cons]
        rw [List.dropLast_concat]
      rw [hfin]
    · subst hu
      subst h
      decide

/-- C4 counterexample: the model output `TOOL_REQUEST: scrape_url(url=")`
contains a single double-quote character, so its inner text `"` is not a
double-quoted string and the claim requires the parser to reject it; the
code instead accepts it (Python `'"'.startswith('"')` and
`'"'.endswith('"')` are both true) and returns the empty URL. -/
theorem c4_lone_quote_accepted :
    parse_scrape_url_request "TOOL_REQUEST: scrape_url(url=\")" = some "" ∧
    ("TOOL_REQUEST: scrape_url(url=\")").data.count '\"' = 1 := by
  constructor
  · decide
  · decide

/-- C4 (amended): the scrape parser returns `some u` exactly when the whole
output is the prefix, a double-quoted text `u`, and the closing parenthesis
— except that a lone double quote also counts as both the opening and the
closing quote and yields the empty URL.  In particular the exact string
`TOOL_REQUEST: scrape_url(url="https://x.com")` parses to
`https://x.com`, and everything else parses to `none`. -/
theorem c4_scrape_grammar_characterization (s u : String) :
    parse_scrape_url_request s = some u ↔
      s.data = scrapeUrlPrefixStr.data ++ '\"' :: (u.data ++ ['\"', ')']) ∨
      (u = "" ∧ s.data = scrapeUrlPrefixStr.data ++ ['\"', ')']) := by
  unfold parse_scrape_url_request
  constructor
  · intro h
    cases hc : parseScrapeCore s.data with
    | none =>
      rw [hc] at h
      exact Option.noConfusion h
    | some v =>
      rw [hc] at h
      simp only [Option.map_some'] at h
      have hv := (parseScrapeCore_iff _ _).mp hc
      rw [Option.some.injEq] at h
      subst h
      rcases hv with hv | ⟨hv1, hv2⟩
      · left
        exact hv
      · right
        subst hv1
        exact ⟨rfl, hv2⟩
  · intro h
    rcases h with h | ⟨hu, h⟩
    · have hc : parseScrapeCore s.data = some u.data :=
        (parseScrapeCore_iff _ _).mpr (Or.inl h)
      rw [hc]
      rfl
    · subst hu
      have hc : parseScrapeCore s.data = some ([] : List Char) :=
        (parseScrapeCore_iff _ _).mpr (Or.inr ⟨rfl, h⟩)
      rw [hc]
      rfl

theorem c4_scrape_characterization_witness :
    parse_scrape_url_request "TOOL_REQUEST: scrape_url(url=\"https://x.com\")" =
      some "https://x.com" :=
  (c4_scrape_grammar_characterization "TOOL_REQUEST: scrape_url(url=\"https://x.com\")"
    "https://x.com").mpr (Or.inl (by decide))

/-! ## The get_from_vdb parser (main.py lines 45-54) -/

/-- One attempt of `re.search(r'query="([^"]*)"', args)` at a fixed start
position: the literal pattern `pat` (ending in the opening quote) must
match here, and the greedy `[^"]*` takes everything up to the next double
quote, which must exist. -/
def matchQuotedAt (pat s : List Char) : Option (List Char) :=
  if strStarts pat s then
    if ((s.drop pat.length).takeWhile (fun c => c != '\"')).length <
        (s.drop pat.length).length then
      some ((s.drop pat.length).takeWhile (fun c => c != '\"'))
    else none
  else none

/-- `re.search`: scan start positions left to right, return the first
successful match's capture group. -/
def findQuoted (pat : List Char) : List Char → Option (List Char)
  | [] => none
  | c :: rest =>
    match matchQuotedAt pat (c :: rest) with
    | some g => some g
    | none => findQuoted pat rest

/-- The literal part of the regex `query="([^"]*)"` of main.py line 48. -/
def queryPatStr : String := "query=\""

/-- The literal part of the regex `category="([^"]*)"` of main.py line 49. -/
def categoryPatStr : String := "category=\""

/-- `parse_get_from_vdb_request` of main.py lines 45-54: check the prefix
and the `)` suffix, slice them off, and search the remaining argument text
for `query="..."` and `category="..."` anywhere, order-independently; both
must be present or no request is recognized. -/
def parse_get_from_vdb_request (llm_output : String) : Option (String × String) :=
  if strStarts getFromVdbPrefixStr.data llm_output.data &&
      strEnds [')'] llm_output.data then
    match findQuoted queryPatStr.data
        ((llm_output.data.drop getFromVdbPrefixStr.data.length).dropLast),
      findQuoted categoryPatStr.data
        ((llm_output.data.drop getFromVdbPrefixStr.data.length).dropLast) with
    | some q, some c => some (String.mk q, String.mk c)
    | some _, none => none
    | none, some _ => none
    | none, none => none
  else none

theorem dropWhile_head_false {p : Char → Bool} {l : List Char} {d : Char} {ds : List Char}
    (h : l.dropWhile p = d :: ds) : p d = false := by
  induction l with
  | nil => simp [List.dropWhile] at h
  | cons a rest ih =>
    rw [List.dropWhile] at h
    by_cases ha : p a
    · simp [ha] at h
      exact ih h
    · simp [ha] at h
      rw [← h.1]
      simp [ha]

theorem matchQuotedAt_sound {pat s g : List Char} (h : matchQuotedAt pat s = some g) :
    (∀ c ∈ g, c ≠ '\"') ∧ ∃ v, s = pat ++ g ++ '\"' :: v := by
  unfold matchQuotedAt at h
  by_cases h1 : strStarts pat s = true
  case neg =>
    rw [if_neg h1] at h
    exact Option.noConfusion h
  rw [if_pos h1] at h
  obtain ⟨t, rfl⟩ := (strStarts_iff _ _).mp h1
  rw [List.drop_left' rfl] at h
  by_cases h2 : (t.takeWhile (fun c => c != '\"')).length < t.length
  case neg =>
    rw [if_neg h2] at h
    exact Option.noConfusion h
  rw [if_pos h2, Option.some.injEq] at h
  subst h
  constructor
  · intro c hc
    have := List.mem_takeWhile_imp hc
    simpa using this
  · have hsplit := (List.takeWhile_append_dropWhile
      (p := fun c => c != '\"') (l := t)).symm
    cases hd : t.dropWhile (fun c => c != '\"') with
    | nil =>
      rw [hd, List.append_nil] at hsplit
      rw [← hsplit] at h2
      exact absurd rfl (Nat.ne_of_lt h2)
    | cons d ds =>
      have hdq : d = '\"' := by
        have := dropWhile_head_false hd
        simpa using this
      subst hdq
      exact ⟨ds, by
        rw [List.append_assoc, ← hd]
        exact congrArg (fun x => pat ++ x) hsplit⟩

theorem findQuoted_sound {pat l g : List Char} (h : findQuoted pat l = some g) :
    (∀ c ∈ g, c ≠ '\"') ∧ ∃ u v, l = u ++ pat ++ g ++ '\"' :: v := by
  induction l with
  | nil => simp [findQuoted] at h
  | cons c rest ih =>
    rw [findQuoted] at h
    cases hm : matchQuotedAt pat (c :: rest) with
    | some g2 =>
      rw [hm] at h
      simp only [Option.some.injEq] at h
      subst h
      obtain ⟨hq, v, hv⟩ := matchQuotedAt_sound hm
      exact ⟨hq, [], v, by simpa using hv⟩
    | none =>
      rw [hm] at h
      simp only [] at h
      obtain ⟨hq, u, v, hv⟩ := ih h
      exact ⟨hq, c :: u, v, by simp [hv]⟩

theorem dropLast_append_exists (t : List Char) : ∃ w, t = t.dropLast ++ w := by
  by_cases hne : t = []
  · subst hne
    exact ⟨[], rfl⟩
  · exact ⟨[t.getLast hne], (List.dropLast_append_getLast hne).symm⟩

/-- C5: the VDB-query parser maps the example request to
`("abc", "xyz")`, also with the arguments swapped; and whenever it
recognizes a request, the output starts with the `get_from_vdb` prefix,
ends with `)`, both arguments appear inside it as double-quoted strings,
and neither captured argument contains a double quote.  The Lean
translation is a total function, matching "parsing is total and never
raises". -/
theorem c5_get_from_vdb_recognizer :
    parse_get_from_vdb_request
        "TOOL_REQUEST: get_from_vdb(query=\"abc\", category=\"xyz\")" =
      some ("abc", "xyz") ∧
    parse_get_from_vdb_request
        "TOOL_REQUEST: get_from_vdb(category=\"xyz\", query=\"abc\")" =
      some ("abc", "xyz") ∧
    ∀ s q c, parse_get_from_vdb_request s = some (q, c) →
      (∀ ch ∈ q.data, ch ≠ '\"') ∧ (∀ ch ∈ c.data, ch ≠ '\"') ∧
      (∃ u v, s.data = u ++ queryPatStr.data ++ q.data ++ '\"' :: v) ∧
      (∃ u v, s.data = u ++ categoryPatStr.data ++ c.data ++ '\"' :: v) ∧
      (∃ t, s.data = getFromVdbPrefixStr.data ++ t) ∧
      (∃ t, s.data = t ++ [')']) := by
  refine ⟨by decide, by decide, ?_⟩
  intro s q c h
  unfold parse_get_from_vdb_request at h
  by_cases h1 : (strStarts getFromVdbPrefixStr.data s.data && strEnds [')'] s.data) = true
  case neg =>
    rw [if_neg h1] at h
    exact Option.noConfusion h
  rw [if_pos h1] at h
  rw [Bool.and_eq_true] at h1
  obtain ⟨h1a, h1b⟩ := h1
  cases hfq : findQuoted queryPatStr.data
      ((s.data.drop getFromVdbPrefixStr.data.length).dropLast) with
  | none =>
    rw [hfq] at h
    cases hfc : findQuoted categoryPatStr.data
        ((s.data.drop getFromVdbPrefixStr.data.length).dropLast) with
    | none => rw [hfc] at h; exact Option.noConfusion h
    | some gc => rw [hfc] at h; exact Option.noConfusion h
  | some gq =>
    rw [hfq] at h
    cases hfc : findQuoted categoryPatStr.data
        ((s.data.drop getFromVdbPrefixStr.data.length).dropLast) with
    | none => rw [hfc] at h; exact Option.noConfusion h
    | some gc =>
      rw [hfc] at h
      simp only [Option.some.injEq, Prod.mk.injEq] at h
      obtain ⟨hq, hc⟩ := h
      obtain ⟨hqno, uq, vq, hargq⟩ := findQuoted_sound hfq
      obtain ⟨hcno, uc, vc, hargc⟩ := findQuoted_sound hfc
      obtain ⟨t, hpre⟩ := (strStarts_iff _ _).mp h1a
      obtain ⟨t2, hsuf⟩ := (strEnds_iff _ _).mp h1b
      have hqd : q.data = gq := by rw [← hq]
      have hcd : c.data = gc := by rw [← hc]
      have hargs : (s.data.drop getFromVdbPrefixStr.data.length).dropLast = t.dropLast := by
        rw [hpre, List.drop_left]
      obtain ⟨w, hw⟩ := dropLast_append_exists t
      refine ⟨?_, ?_, ?_, ?_, ⟨t, hpre⟩, ⟨t2, hsuf⟩⟩
      · intro ch hch
        exact hqno ch (by rwa [hqd] at hch)
      · intro ch hch
        exact hcno ch (by rwa [hcd] at hch)
      · refine ⟨getFromVdbPrefixStr.data ++ uq, vq ++ w, ?_⟩
        rw [hqd, hpre]
        conv_lhs => rw [hw]
        rw [← hargs, hargq]
        simp [List.append_assoc]
      · refine ⟨getFromVdbPrefixStr.data ++ uc, vc ++ w, ?_⟩
        rw [hcd, hpre]
        conv_lhs => rw [hw]
        rw [← hargs, hargc]
        simp [List.append_assoc]

theorem c5_get_from_vdb_recognizer_witness :
    ∃ t, ("TOOL_REQUEST: get_from_vdb(query=\"abc\", category=\"xyz\")" : String).data =
      getFromVdbPrefixStr.data ++ t :=
  ((c5_get_from_vdb_recognizer.2.2
    "TOOL_REQUEST: get_from_vdb(query=\"abc\", category=\"xyz\")" "abc" "xyz"
    (by decide)).2.2.2.2).1

/-! ## Semantic query adapter (tools.py, query_information lines 48-87)

The ChromaDB client is the external store collaborator.  It is modelled as
a list of named collections holding documents; the operations the adapter
performs against it are recorded so that "no store call" claims can be
stated. -/

/-- The external vector store: named collections of documents. -/
structure VDB where
  collections : List (String × List String)
deriving DecidableEq

/-- Operations issued to the store client. -/
inductive StoreOp where
  | getCollection (name : String)
  | collectionQuery (name : String) (text : String) (k : Nat)
deriving DecidableEq

/-- Modelled from the spec: the message of the store's lookup failure when
a collection is absent (`NotFound`); the exact wording is the external
library's, fixed but arbitrary here. -/
def collectionLookupErr (name : String) : String :=
  "Collection " ++ name ++ " does not exist."

/-- Modelled from the spec: the store's opaque similarity ranking, "query
(collection, text, k) -> ranked sequence"; modelled as the stored
documents truncated to k. -/
def storeQuery (docs : List String) (k : Nat) : List String :=
  docs.take k

/-- The shape tools.py returns from `query_information`: ChromaDB's nested
single-query result restricted to the fields the program reads (`error`
and `documents`; `distances`/`metadatas`/`ids` are opaque floats and
mappings the program never branches on). -/
structure QueryResult where
  error : Option String
  documents : List (List String)
deriving DecidableEq

/-- `query_information` of tools.py lines 48-87, with the store passed
explicitly and the issued store operations returned alongside the result.
The code calls `client.get_collection` first (lines 63-73), checks the
empty query only afterwards (lines 76-78), then queries with `n_results=5`
(lines 80-84). -/
def query_information (st : VDB) (query_text category : String) :
    QueryResult × List StoreOp :=
  match st.collections.lookup category with
  | none =>
    ({ error := some (collectionLookupErr category), documents := [[]] },
     [StoreOp.getCollection category])
  | some docs =>
    if query_text = "" then
      ({ error := some "Query text cannot be empty", documents := [[]] },
       [StoreOp.getCollection category])
    else
      ({ error := none, documents := [storeQuery docs 5] },
       [StoreOp.getCollection category, StoreOp.collectionQuery category query_text 5])

/-- C6 counterexample: with an empty store and category `xyz`, the empty
query returns the collection-lookup error, not "Query text cannot be
empty", and a store call (the collection lookup) is made — the code looks
the collection up before checking the query. -/
theorem c6_empty_query_on_missing_category :
    (query_information ⟨[]⟩ "" "xyz").1.error ≠ some "Query text cannot be empty" ∧
    (query_information ⟨[]⟩ "" "xyz").2 ≠ [] := by
  constructor
  · decide
  · decide

/-- C6 (amended): for every category that exists as a collection in the
store, the empty query returns error "Query text cannot be empty" with
empty documents, and no similarity query is issued to the store — only the
collection lookup that the code performs before the emptiness check. -/
theorem c6_empty_query_result (st : VDB) (c : String) (docs : List String)
    (h : st.collections.lookup c = some docs) :
    query_information st "" c =
      ({ error := some "Query text cannot be empty", documents := [[]] },
       [StoreOp.getCollection c]) := by
  unfold query_information
  rw [h]
  rfl

theorem c6_empty_query_result_witness :
    query_information ⟨[("abc", ["doc"])]⟩ "" "abc" =
      ({ error := some "Query text cannot be empty", documents := [[]] },
       [StoreOp.getCollection "abc"]) :=
  c6_empty_query_result ⟨[("abc", ["doc"])]⟩ "abc" ["doc"] (by decide)

/-- C7: for every non-empty query, querying a category that is not a
collection of the store returns the store's lookup-failure message as the
error with empty documents; the adapter is a total function and the
exception is caught, never propagated. -/
theorem c7_missing_category_result (st : VDB) (q c : String) (_hq : q ≠ "")
    (h : st.collections.lookup c = none) :
    query_information st q c =
      ({ error := some (collectionLookupErr c), documents := [[]] },
       [StoreOp.getCollection c]) := by
  unfold query_information
  rw [h]

theorem c7_missing_category_result_witness :
    query_information ⟨[]⟩ "hello" "xyz" =
      ({ error := some (collectionLookupErr "xyz"), documents := [[]] },
       [StoreOp.getCollection "xyz"]) :=
  c7_missing_category_result ⟨[]⟩ "hello" "xyz" (by decide) (by decide)

/-! ## Content ingestion (tools.py, scrape_and_embed_website lines 89-171)

The HTTP fetch and the BeautifulSoup paragraph extraction are the external
fetch collaborator ("URL -> ordered list of text chunks"); it is passed in
as `fetched` (`none` models a failed fetch, `some ps` the raw text of the
`<p>` nodes).  `p.get_text(strip=True)` trims each node's text, modelled
by `pyStrip` below.  `uuid.uuid4()` is modelled by the id supply `mkId`. -/

/-- Python `str.strip()` / BeautifulSoup `strip=True`: remove leading and
trailing whitespace. -/
def pyStrip (s : String) : String :=
  String.mk (((s.data.dropWhile Char.isWhitespace).reverse.dropWhile
    Char.isWhitespace).reverse)

/-- The metadata attached to each chunk (tools.py lines 154-158). -/
structure ChunkMeta where
  source_url : String
  chunk_index : Nat
  original_category_base : String
deriving DecidableEq

/-- One `collection.add` batch (tools.py lines 164-168). -/
structure StoreAdd where
  collection : String
  documents : List String
  ids : List String
  metadatas : List ChunkMeta
deriving DecidableEq

/-- `scrape_and_embed_website` of tools.py lines 89-171: on fetch failure
return `[]`; trim and drop empty paragraphs; if no chunks remain return
`[]` before any store interaction; otherwise derive the category, build
parallel id/metadata lists, and submit one `add` batch.  Returns the id
list and the store writes performed. -/
def scrape_and_embed_website (fetched : Option (List String)) (hostn : Option String)
    (url : String) (mkId : Nat → String) : List String × List StoreAdd :=
  match fetched with
  | none => ([], [])
  | some paragraphTexts =>
    if (paragraphTexts.map pyStrip).filter (fun p => p != "") = [] then ([], [])
    else
      if ((paragraphTexts.map pyStrip).filter (fun p => p != "")) = [] then ([], [])
      else
        (((List.range ((paragraphTexts.map pyStrip).filter (fun p => p != "")).length).map
            mkId),
         [{ collection := deriveCategory hostn,
            documents := (paragraphTexts.map pyStrip).filter (fun p => p != ""),
            ids := (List.range
              ((paragraphTexts.map pyStrip).filter (fun p => p != "")).length).map mkId,
            metadatas := (List.range
              ((paragraphTexts.map pyStrip).filter (fun p => p != "")).length).map
                fun i => { source_url := url, chunk_index := i,
                           original_category_base := hostBase hostn } }])

/-- C8: ingestion discards paragraphs that are empty after trimming; when
zero chunks remain it returns the empty id list and performs no store
write; every write that does happen carries exactly the non-empty trimmed
chunks, so no empty text is ever stored. -/
theorem c8_ingestion_discards_empty (fetched : Option (List String)) (hostn : Option String)
    (url : String) (mkId : Nat → String) :
    (((fetched.getD []).map pyStrip).filter (fun p => p != "") = [] →
      scrape_and_embed_website fetched hostn url mkId = ([], [])) ∧
    (∀ w ∈ (scrape_and_embed_website fetched hostn url mkId).2,
      w.documents = ((fetched.getD []).map pyStrip).filter (fun p => p != "") ∧
      ∀ d ∈ w.documents, d ≠ "") := by
  cases fetched with
  | none =>
    refine ⟨fun _ => rfl, ?_⟩
    intro w hw
    simp [scrape_and_embed_website] at hw
  | some ps =>
    constructor
    · intro h
      simp only [Option.getD_some] at h
      simp only [scrape_and_embed_website]
      rw [if_pos h]
    · intro w hw
      simp only [scrape_and_embed_website] at hw
      by_cases h : (ps.map pyStrip).filter (fun p => p != "") = []
      · rw [if_pos h] at hw
        simp at hw
      · rw [if_neg h, if_neg h] at hw
        simp only [List.mem_singleton] at hw
        subst hw
        refine ⟨rfl, ?_⟩
        intro d hd
        have hmem := List.mem_filter.mp hd
        simpa using hmem.2

theorem c8_ingestion_discards_empty_witness :
    scrape_and_embed_website (some ["  ", ""]) (some "www.fib.upc.edu") "u" (fun _ => "id") =
      ([], []) :=
  (c8_ingestion_discards_empty (some ["  ", ""]) (some "www.fib.upc.edu") "u"
    (fun _ => "id")).1 (by decide)

/-! ## Turn orchestration (main.py, run_chat_loop lines 57-165)

One iteration of the chat loop for a non-empty, non-exit user input.  The
model-completion collaborator is external: `complete1` is the outcome of
the first `client.chat.completions.create` of the turn (its message-list
argument is the history plus the user message), `complete2` the outcome of
the synthesis call as a function of the message list the code builds for
it.  `openai.APIError` is the error case.  The tool functions are the
embedded `tools.py` operations, abstracted to their observable outcome;
each tool invocation is recorded in the returned call list. -/

inductive Role where
  | system
  | user
  | assistant
deriving DecidableEq

structure Msg where
  role : Role
  content : String
deriving DecidableEq

inductive ToolCall where
  | scrapeCall (url : String)
  | vdbCall (query : String) (category : String)
deriving DecidableEq

structure TurnDeps where
  complete1 : Except String String
  complete2 : List Msg → Except String String
  scrapeTool : String → List String
  vdbTool : String → String → QueryResult

/-- Python truthiness of `str | None`: `None` and `""` are falsy — the
dispatch `if parsed_url_to_scrape:` of main.py line 102. -/
def truthyOptStr : Option String → Bool
  | none => false
  | some s => s != ""

/-- main.py line 161. -/
def apiErrorReply : String := "Sorry, I encountered an API error."

/-- main.py line 120. -/
def noDocsText : String :=
  "No specific documents found in VDB for your query in that category."

/-- main.py line 107. -/
def scrapeOkReply (url : String) (n : Nat) : String :=
  "Understood. I have processed the URL " ++ url ++ ". Its content (found " ++
    toString n ++ " chunks) has been scraped and stored in the VDB."

/-- main.py line 109. -/
def scrapeFailReply (url : String) : String :=
  "I attempted to process the URL " ++ url ++
    ", but failed to scrape or embed any content. It might be inaccessible or have no extractable text."

/-- main.py lines 119-128: the VDB result summary (the error string is
also checked with Python truthiness, so an empty error string falls
through to the documents check). -/
def vdbResultsText (res : QueryResult) : String :=
  if truthyOptStr res.error then
    noDocsText ++ " (Error from VDB: " ++ res.error.getD "" ++ ")"
  else
    match res.documents with
    | d0 :: _ => if d0 != [] then String.intercalate "\n---\n" d0 else noDocsText
    | [] => noDocsText

/-- main.py lines 132-138: the system message injected before the
synthesis completion. -/
def synthPrompt (category query resultsText userInput : String) : String :=
  "You previously decided to search the VDB category \"" ++ category ++
    "\" with the query \"" ++ query ++
    "\". The VDB returned the following information:\n---\n" ++ resultsText ++
    "\n---\nBased on this, please now provide a comprehensive answer to the user\x27s original question: \"" ++
    userInput ++ "\". Answer directly without mentioning the VDB search process or tool formats."

/-- One turn of `run_chat_loop`, main.py lines 87-165: first completion
(its text stripped, line 97), parse scrape then vdb request, dispatch on
Python truthiness, run the tool, build the reply, and append the user
message and the assistant reply (or the fixed apology on `APIError`) to
the persistent history. -/
def run_turn (deps : TurnDeps) (history : List Msg) (userInput : String) :
    List Msg × List ToolCall :=
  match deps.complete1 with
  | Except.error _ =>
    (history ++ [⟨Role.user, userInput⟩, ⟨Role.assistant, apiErrorReply⟩], [])
  | Except.ok raw =>
    if truthyOptStr (parse_scrape_url_request (pyStrip raw)) then
      (history ++ [⟨Role.user, userInput⟩,
        ⟨Role.assistant,
          if deps.scrapeTool ((parse_scrape_url_request (pyStrip raw)).getD "") != [] then
            scrapeOkReply ((parse_scrape_url_request (pyStrip raw)).getD "")
              (deps.scrapeTool ((parse_scrape_url_request (pyStrip raw)).getD "")).length
          else scrapeFailReply ((parse_scrape_url_request (pyStrip raw)).getD "")⟩],
       [ToolCall.scrapeCall ((parse_scrape_url_request (pyStrip raw)).getD "")])
    else if (parse_get_from_vdb_request (pyStrip raw)).isSome then
      match deps.complete2 ((history ++ [⟨Role.user, userInput⟩]) ++
        [⟨Role.assistant, pyStrip raw⟩,
         ⟨Role.system,
          synthPrompt ((parse_get_from_vdb_request (pyStrip raw)).getD ("", "")).2
            ((parse_get_from_vdb_request (pyStrip raw)).getD ("", "")).1
            (vdbResultsText
              (deps.vdbTool ((parse_get_from_vdb_request (pyStrip raw)).getD ("", "")).1
                ((parse_get_from_vdb_request (pyStrip raw)).getD ("", "")).2))
            userInput⟩]) with
      | Except.error _ =>
        (history ++ [⟨Role.user, userInput⟩, ⟨Role.assistant, apiErrorReply⟩],
         [ToolCall.vdbCall ((parse_get_from_vdb_request (pyStrip raw)).getD ("", "")).1
            ((parse_get_from_vdb_request (pyStrip raw)).getD ("", "")).2])
      | Except.ok ans =>
        (history ++ [⟨Role.user, userInput⟩, ⟨Role.assistant, ans⟩],
         [ToolCall.vdbCall ((parse_get_from_vdb_request (pyStrip raw)).getD ("", "")).1
            ((parse_get_from_vdb_request (pyStrip raw)).getD ("", "")).2])
    else
      (history ++ [⟨Role.user, userInput⟩, ⟨Role.assistant, pyStrip raw⟩], [])

/-- C9: a completion failure is caught at the turn level.  First conjunct:
if the first completion fails, the history gains the user message followed
by the fixed apology and no tool runs.  Second conjunct: if the first
completion succeeds with a VDB request and the synthesis completion fails,
the history likewise gains the user message and the fixed apology — the
session continues either way. -/
theorem c9_api_error_recovery (deps : TurnDeps) (hist : List Msg) (ui : String) :
    (∀ e, deps.complete1 = Except.error e →
      run_turn deps hist ui =
        (hist ++ [⟨Role.user, ui⟩, ⟨Role.assistant, apiErrorReply⟩], [])) ∧
    (∀ raw, deps.complete1 = Except.ok raw →
      truthyOptStr (parse_scrape_url_request (pyStrip raw)) = false →
      (parse_get_from_vdb_request (pyStrip raw)).isSome = true →
      (∀ msgs, ∃ e, deps.complete2 msgs = Except.error e) →
      (run_turn deps hist ui).1 =
        hist ++ [⟨Role.user, ui⟩, ⟨Role.assistant, apiErrorReply⟩]) := by
  constructor
  · intro e h
    simp only [run_turn, h]
  · intro raw h1 hs hv h2
    simp only [run_turn, h1, hs, hv, Bool.false_eq_true, if_false, if_true]
    split
    · rfl
    · rename_i ans heq
      obtain ⟨e, he⟩ := h2 _
      rw [he] at heq
      exact Except.noConfusion heq

theorem c9_api_error_recovery_witness :
    run_turn
      ⟨Except.error "boom", fun _ => Except.error "boom", fun _ => [],
       fun _ _ => ⟨none, [[]]⟩⟩ [] "hi" =
      ([⟨Role.user, "hi"⟩, ⟨Role.assistant, apiErrorReply⟩], []) :=
  (c9_api_error_recovery
    ⟨Except.error "boom", fun _ => Except.error "boom", fun _ => [],
     fun _ _ => ⟨none, [[]]⟩⟩ [] "hi").1 "boom" rfl

/-- The model output carrying a well-formed scrape request with the empty
URL. -/
def emptyScrapeReq : String := "TOOL_REQUEST: scrape_url(url=\"\")"

/-- C10: on the model output `TOOL_REQUEST: scrape_url(url="")` the parser
returns the empty string, but the truthiness dispatch of main.py line 102
treats it as no tool request: no tool is invoked and the raw tool-request
string becomes the turn's assistant answer appended to history. -/
theorem c10_empty_url_not_dispatched (deps : TurnDeps) (hist : List Msg) (ui : String)
    (h : deps.complete1 = Except.ok emptyScrapeReq) :
    parse_scrape_url_request emptyScrapeReq = some "" ∧
    run_turn deps hist ui =
      (hist ++ [⟨Role.user, ui⟩, ⟨Role.assistant, emptyScrapeReq⟩], []) := by
  constructor
  · decide
  · have hstrip : pyStrip emptyScrapeReq = emptyScrapeReq := by decide
    have hs : truthyOptStr (parse_scrape_url_request emptyScrapeReq) = false := by decide
    have hv : parse_get_from_vdb_request emptyScrapeReq = none := by decide
    simp only [run_turn, h, hstrip, hs, hv, Bool.false_eq_true, if_false,
      Option.isSome_none]

theorem c10_empty_url_not_dispatched_witness :
    run_turn
      ⟨Except.ok emptyScrapeReq, fun _ => Except.error "e", fun _ => [],
       fun _ _ => ⟨none, [[]]⟩⟩ [] "hi" =
      ([⟨Role.user, "hi"⟩, ⟨Role.assistant, emptyScrapeReq⟩], []) :=
  (c10_empty_url_not_dispatched
    ⟨Except.ok emptyScrapeReq, fun _ => Except.error "e", fun _ => [],
     fun _ _ => ⟨none, [[]]⟩⟩ [] "hi" rfl).2

end BarbonesAgent
